import Mathlib

set_option maxHeartbeats 1000000

/-!
Shallow embedding of the newrelic/oci-log-integration logs function:
the size-aware batcher (`loggroup/log_group.go`), the credential
resolver (`util/secrets_util.go`), the TTL-cached client constructor
(`util/newrelic_client_util.go`, TTL variant), the worker consumer
(`ConsumeLogBatches`), the event decoder (`unmarshal`), and the
pipeline driver (`handleFunctionWithClient` in `main.go`).

External collaborators (JSON marshalling, base64 decoding, `strconv.Atoi`,
the OCI secret-bundle fetch, the New Relic sink) are passed in as explicit
function or outcome parameters, mirroring the interfaces the Go code
consumes.  Records and attribute maps are kept abstract type parameters:
the code never inspects their contents, only their serialized sizes.
-/

/-- `common.DetailedLog`: one batch as put on the channel — the shared
attribute map (`common` block) plus the list of record entries.  The Go
code wraps each such value in a one-element `DetailedLogsBatch` slice
before sending; that wrapper carries no extra information. -/
structure DetailedLog (α κ : Type) where
  commonAttributes : κ
  entries : List α
  deriving DecidableEq, Repr

/-- `util.ProduceMessageToChannel`: builds the channel message for one
flushed batch. -/
def ProduceMessageToChannel (commonAttributes : κ) (currentBatch : List α) :
    DetailedLog α κ :=
  ⟨commonAttributes, currentBatch⟩

/-- The loop body of `splitLogsIntoBatches` (`loggroup/log_group.go`),
with the channel sends collected into the returned list in send order.
`marshal` stands for `json.Marshal` size estimation: `none` models a
marshalling error (the record is skipped with a warning), `some n` models
a successful serialization of `n` bytes.  The two state variables
`currentBatch` and `currentBatchSize` are threaded explicitly.
Note the Go overflow branch reassigns `currentBatch = {logData}` *before*
passing it to `util.ProduceMessageToChannel`, so the message sent there
holds only the current record. -/
def splitLoop (marshal : α → Option Nat) (maxPayloadSize : Int)
    (commonAttributes : κ) :
    List α → List α → Nat → List (DetailedLog α κ)
  | [], currentBatch, _ =>
      if currentBatch.length > 0 then
        [ProduceMessageToChannel commonAttributes currentBatch]
      else
        []
  | logData :: rest, currentBatch, currentBatchSize =>
      match marshal logData with
      | none =>
          splitLoop marshal maxPayloadSize commonAttributes rest
            currentBatch currentBatchSize
      | some logSize =>
          if ((currentBatchSize + logSize : Int) > maxPayloadSize) ∧
              currentBatch.length > 0 then
            ProduceMessageToChannel commonAttributes [logData] ::
              splitLoop marshal maxPayloadSize commonAttributes rest
                [logData] logSize
          else
            splitLoop marshal maxPayloadSize commonAttributes rest
              (currentBatch ++ [logData]) (currentBatchSize + logSize)

/-- `splitLogsIntoBatches logs maxPayloadSize commonAttributes channel`:
the full batching pass, starting from an empty running batch and size 0.
The result lists the batches sent on the channel, in order. -/
def splitLogsIntoBatches (marshal : α → Option Nat) (logs : List α)
    (maxPayloadSize : Int) (commonAttributes : κ) :
    List (DetailedLog α κ) :=
  splitLoop marshal maxPayloadSize commonAttributes logs [] 0

/-- `common.MaxPayloadSize` (1 MiB), the bound `ProcessLogs` passes to
`splitLogsIntoBatches`. -/
def MaxPayloadSize : Int := 1 * 1024 * 1024

/-- `loggroup.ProcessLogs`: builds the instrumentation attribute map and
batches the event records under `common.MaxPayloadSize`.  The attribute
values come from constants the claims never inspect, so the built map is
abstracted as the parameter `attributes`. -/
def ProcessLogs (marshal : α → Option Nat) (attributes : κ)
    (OCILoggingEvent : List α) : List (DetailedLog α κ) :=
  splitLogsIntoBatches marshal OCILoggingEvent MaxPayloadSize attributes

/-- The size estimate of one record, as the batcher uses it: the length of
its JSON serialization (0 is never consulted for records that sit in an
emitted batch, since only successfully marshalled records are appended). -/
def estSize (marshal : α → Option Nat) (logData : α) : Nat :=
  (marshal logData).getD 0

/-- The summed estimated serialized size of a batch's records. -/
def batchSize (marshal : α → Option Nat) (batch : List α) : Nat :=
  (batch.map (estSize marshal)).sum

/-- Total record count over a list of emitted batches. -/
def totalRecords (batches : List (DetailedLog α κ)) : Nat :=
  (batches.map (fun b => b.entries.length)).sum

/-- The number of input records whose serialization succeeds. -/
def serializableCount (marshal : α → Option Nat) (logs : List α) : Nat :=
  (logs.filter (fun r => (marshal r).isSome)).length

theorem batchSize_append (marshal : α → Option Nat) (l : List α) (r : α) :
    batchSize marshal (l ++ [r]) = batchSize marshal l + estSize marshal r := by
  simp [batchSize]

theorem splitLoop_cons_none (marshal : α → Option Nat) (mx : Int) (attrs : κ)
    (logData : α) (rest cb : List α) (cs : Nat)
    (h : marshal logData = none) :
    splitLoop marshal mx attrs (logData :: rest) cb cs =
      splitLoop marshal mx attrs rest cb cs := by
  simp [splitLoop, h]

theorem splitLoop_cons_some (marshal : α → Option Nat) (mx : Int) (attrs : κ)
    (logData : α) (rest cb : List α) (cs logSize : Nat)
    (h : marshal logData = some logSize) :
    splitLoop marshal mx attrs (logData :: rest) cb cs =
      if ((cs + logSize : Int) > mx) ∧ cb.length > 0 then
        ProduceMessageToChannel attrs [logData] ::
          splitLoop marshal mx attrs rest [logData] logSize
      else
        splitLoop marshal mx attrs rest (cb ++ [logData]) (cs + logSize) := by
  simp [splitLoop, h]

theorem splitLoop_size_invariant (marshal : α → Option Nat)
    (maxPayloadSize : Int) (commonAttributes : κ) :
    ∀ (logs currentBatch : List α) (currentBatchSize : Nat),
      batchSize marshal currentBatch = currentBatchSize →
      ((currentBatchSize : Int) ≤ maxPayloadSize ∨ currentBatch.length ≤ 1) →
      ∀ B ∈ splitLoop marshal maxPayloadSize commonAttributes logs
          currentBatch currentBatchSize,
        (batchSize marshal B.entries : Int) ≤ maxPayloadSize ∨
          B.entries.length = 1 := by
  intro logs
  induction logs with
  | nil =>
      intro currentBatch currentBatchSize hsum hinv B hB
      simp only [splitLoop] at hB
      by_cases hne : currentBatch.length > 0
      · simp only [if_pos hne, List.mem_singleton] at hB
        subst hB
        rcases hinv with h | h
        · exact Or.inl (by simpa [ProduceMessageToChannel, hsum] using h)
        · exact Or.inr (by simpa [ProduceMessageToChannel] using Nat.le_antisymm h hne)
      · simp [if_neg hne] at hB
  | cons logData rest ih =>
      intro currentBatch currentBatchSize hsum hinv B hB
      cases hmar : marshal logData with
      | none =>
          rw [splitLoop_cons_none marshal maxPayloadSize commonAttributes
            logData rest currentBatch currentBatchSize hmar] at hB
          exact ih currentBatch currentBatchSize hsum hinv B hB
      | some logSize =>
          rw [splitLoop_cons_some marshal maxPayloadSize commonAttributes
            logData rest currentBatch currentBatchSize logSize hmar] at hB
          by_cases hcond :
              ((currentBatchSize + logSize : Int) > maxPayloadSize) ∧
                currentBatch.length > 0
          · rw [if_pos hcond] at hB
            rcases List.mem_cons.mp hB with hB | hB
            · subst hB
              exact Or.inr (by simp [ProduceMessageToChannel])
            · refine ih [logData] logSize ?_ ?_ B hB
              · simp [batchSize, estSize, hmar]
              · exact Or.inr (by simp)
          · rw [if_neg hcond] at hB
            refine ih (currentBatch ++ [logData]) (currentBatchSize + logSize)
              ?_ ?_ B hB
            · rw [batchSize_append marshal currentBatch logData, hsum,
                estSize, hmar]
              rfl
            · rcases not_and_or.mp hcond with h | h
              · exact Or.inl (by push_cast; omega)
              · refine Or.inr ?_
                have h0 : currentBatch.length = 0 := by omega
                simp [h0]

/-- C3: every batch the batcher emits either has summed estimated
serialized size within the maximum payload size, or consists of exactly
one record. -/
theorem C3_size_invariant (marshal : α → Option Nat) (logs : List α)
    (maxPayloadSize : Int) (commonAttributes : κ) (B : DetailedLog α κ)
    (hB : B ∈ splitLogsIntoBatches marshal logs maxPayloadSize
        commonAttributes) :
    (batchSize marshal B.entries : Int) ≤ maxPayloadSize ∨
      B.entries.length = 1 := by
  refine splitLoop_size_invariant marshal maxPayloadSize commonAttributes
    logs [] 0 ?_ ?_ B hB
  · simp [batchSize]
  · exact Or.inr (by simp)

theorem C3_size_invariant_witness :
    (batchSize (fun n : Nat => some n)
        (DetailedLog.mk () [60] : DetailedLog Nat Unit).entries : Int) ≤ 100 ∨
      (DetailedLog.mk () [60] : DetailedLog Nat Unit).entries.length = 1 :=
  C3_size_invariant (fun n : Nat => some n) [50, 60] 100 ()
    (DetailedLog.mk () [60]) (by decide)

/-- C1: the claimed count conservation fails on the code.  With records of
sizes 50, 40, 60 and maxPayloadSize 100 all three records serialize, yet
the emitted batches are `[60]` and `[60]`: the accumulated batch
`[50, 40]` is overwritten (never sent) in the overflow branch and the
record of size 60 is sent twice, so the summed record count is 2 ≠ 3. -/
theorem C1_count_conservation_fails :
    splitLogsIntoBatches (fun n : Nat => some n) [50, 40, 60] 100 () =
      [DetailedLog.mk () [60], DetailedLog.mk () [60]] ∧
    totalRecords
        (splitLogsIntoBatches (fun n : Nat => some n) [50, 40, 60] 100 ()) =
      2 ∧
    serializableCount (fun n : Nat => some n) [50, 40, 60] = 3 := by
  refine ⟨rfl, rfl, rfl⟩

/-- C2: on overflow the code does not emit the previously accumulated
running batch: with records of sizes 50 and 60 under maxPayloadSize 100 it
sends the batch `[60]` (the freshly started batch holding the current
record) and at the end sends `[60]` again, while the accumulated batch
`[50]` is never sent.  The claim's 3-records-of-~300-bytes scenario does
produce 3 one-record batches, but they are records 2, 3, 3 — not one batch
per input record. -/
theorem C2_overflow_emits_wrong_batch :
    splitLogsIntoBatches (fun n : Nat => some n) [50, 60] 100 () =
      [DetailedLog.mk () [60], DetailedLog.mk () [60]] ∧
    (DetailedLog.mk () [50] : DetailedLog Nat Unit) ∉
      splitLogsIntoBatches (fun n : Nat => some n) [50, 60] 100 () ∧
    splitLogsIntoBatches (fun n : Nat => some n) [300, 301, 302] 100 () =
      [DetailedLog.mk () [301], DetailedLog.mk () [302],
        DetailedLog.mk () [302]] := by
  refine ⟨rfl, by decide, rfl⟩

/-- C4: a single oversized record alone is emitted as its own one-record
batch, but the universal claim fails: an oversized record followed by any
further record is silently dropped — with sizes 5000 and 10 under
maxPayloadSize 1000 the emitted batches are `[10]` and `[10]`, and the
oversized record appears in no batch. -/
theorem C4_oversized_record_dropped :
    splitLogsIntoBatches (fun n : Nat => some n) [5000] 1000 () =
      [DetailedLog.mk () [5000]] ∧
    splitLogsIntoBatches (fun n : Nat => some n) [5000, 10] 1000 () =
      [DetailedLog.mk () [10], DetailedLog.mk () [10]] ∧
    ∀ B ∈ splitLogsIntoBatches (fun n : Nat => some n) [5000, 10] 1000 (),
      5000 ∉ B.entries := by
  refine ⟨rfl, rfl, by decide⟩

/-- `common.EnvLicenseKey`: the environment variable holding the direct
license-key override. -/
def EnvLicenseKey : String := "LICENSE_KEY"

/-- Modelled from the spec: the repository's constants file defining the
vault-related names is not in the sources; the tests set this variable as
`SECRET_OCID`. -/
def SecretOCID : String := "SECRET_OCID"

/-- Modelled from the spec: counterpart of `SecretOCID` for the vault
region; the tests set it as `VAULT_REGION`. -/
def VaultRegion : String := "VAULT_REGION"

/-- Modelled from the spec: the environment variable overriding the
client-cache TTL in seconds. -/
def ClientTTL : String := "CLIENT_TTL"

/-- Modelled from the spec: the default client-cache TTL, 600 seconds;
the tests expect `600 * time.Second`. -/
def DefaultClientTTL : Int := 600

/-- Modelled from the spec: the JSON field name holding the license key
inside a JSON-shaped secret; the spec's example secret uses
`licenseKey`. -/
def LicenseKey : String := "licenseKey"

/-- Modelled from the spec: the fixed worker-pool size (`default 6`);
`common.NumberOfWorkers` is only referenced, not defined, in the
sources. -/
def NumberOfWorkers : Nat := 6

/-- Outcome of the OCI `GetSecretBundle` call plus the shape checks the
code performs on the response: a fetch error, a bundle whose content is
not base64-typed, a nil content pointer, or a base64 content string. -/
inductive BundleFetchOutcome
  | fetchErr (msg : String)
  | wrongContentType
  | nilContent
  | content (b64 : String)
  deriving DecidableEq, Repr

/-- `util.GetSecretFromOCIVault`: validates the OCID and region, then
inspects the fetched bundle and base64-decodes its content.  The OCI
client call is abstracted by the `fetch` outcome and `encoding/base64`
by `b64decode`. -/
def GetSecretFromOCIVault (fetch : BundleFetchOutcome)
    (b64decode : String → Option String) (secretOCID vaultRegion : String) :
    Except String String :=
  if secretOCID = "" then
    Except.error "secret OCID is empty"
  else if vaultRegion = "" then
    Except.error "vault region is empty"
  else
    match fetch with
    | BundleFetchOutcome.fetchErr msg =>
        Except.error ("failed to fetch secret bundle: " ++ msg)
    | BundleFetchOutcome.wrongContentType =>
        Except.error "unexpected secret content type"
    | BundleFetchOutcome.nilContent =>
        Except.error "secret content is nil"
    | BundleFetchOutcome.content c =>
        match b64decode c with
        | none => Except.error "failed to decode secret content"
        | some decodedSecret => Except.ok decodedSecret

instance exceptDecEq {ε α : Type} [DecidableEq ε] [DecidableEq α] :
    DecidableEq (Except ε α) := fun x y =>
  match x, y with
  | Except.ok a, Except.ok b =>
      if h : a = b then isTrue (by rw [h]) else isFalse (by simp [h])
  | Except.error a, Except.error b =>
      if h : a = b then isTrue (by rw [h]) else isFalse (by simp [h])
  | Except.ok _, Except.error _ => isFalse (by simp)
  | Except.error _, Except.ok _ => isFalse (by simp)

/-- The observable outcome of one `GetLicenseKeyWithContext` call: the
returned key-or-error, whether an OCI secrets client was constructed, and
whether the vault lookup (`GetSecretFromOCIVault`) was entered. -/
structure LicenseKeyResult where
  result : Except String String
  clientConstructed : Bool
  vaultLookup : Bool
  deriving DecidableEq, Repr

/-- `util.GetLicenseKeyWithContext`: returns the environment override if
non-empty, otherwise constructs a secrets client (`newClient` models
`NewOCISecretsManagerClient`) and fetches the secret from the vault.  The
decoded vault content is returned verbatim — no JSON parsing happens on
this path. -/
def GetLicenseKeyWithContext (env : String → String)
    (newClient : Except String Unit) (fetch : BundleFetchOutcome)
    (b64decode : String → Option String) : LicenseKeyResult :=
  if env EnvLicenseKey ≠ "" then
    ⟨Except.ok (env EnvLicenseKey), false, false⟩
  else
    let secretOCID := env SecretOCID
    let vaultRegion := env VaultRegion
    match newClient with
    | Except.error e => ⟨Except.error e, true, false⟩
    | Except.ok _ =>
        ⟨GetSecretFromOCIVault fetch b64decode secretOCID vaultRegion,
          true, true⟩

/-- `extractLicenseKeyFromSecret`, the helper defined in the util test
file: rejects an empty secret, tries to parse it as a JSON string map
(`parseJSON` models `json.Unmarshal` into `map[string]string`, yielding
the entries as an association list), returns the whole secret verbatim
when it is not JSON, and otherwise requires a present, non-empty
license-key field. -/
def extractLicenseKeyFromSecret
    (parseJSON : String → Option (List (String × String)))
    (secretValue : String) : Except String String :=
  if secretValue = "" then
    Except.error "license key secret is empty"
  else
    match parseJSON secretValue with
    | none => Except.ok secretValue
    | some secretMap =>
        match secretMap.lookup LicenseKey with
        | some licenseKey =>
            if licenseKey ≠ "" then
              Except.ok licenseKey
            else
              Except.error "license key is empty or not present in the secret"
        | none =>
            Except.error "license key is empty or not present in the secret"

/-- The package-level cache globals of the TTL variant of
`util.NewNRClient`: `cachedNRClient`, `nrClientError`, `clientCacheTime`.
Time is modelled in seconds as an integer instant. -/
structure NRCacheState (γ : Type) where
  cachedNRClient : Option γ
  nrClientError : Option String
  clientCacheTime : Int
  deriving DecidableEq, Repr

/-- One `NewNRClient` call's observables: the returned client and error,
the cache state afterwards, and whether `createNRClient` ran. -/
structure NRClientResult (γ : Type) where
  client : Option γ
  clientError : Option String
  state : NRCacheState γ
  resolved : Bool
  deriving DecidableEq, Repr

/-- `util.getClientTTL` (TTL variant): the TTL in seconds from the
environment, falling back to `DefaultClientTTL` when the variable is
unset, unparsable (`atoi` models `strconv.Atoi`), or non-positive.  The
Go function multiplies the result by `time.Second`; the model keeps
seconds throughout. -/
def getClientTTL (env : String → String) (atoi : String → Option Int) :
    Int :=
  let envTTL := env ClientTTL
  if envTTL ≠ "" then
    match atoi envTTL with
    | some parsedTTL =>
        if parsedTTL > 0 then parsedTTL else DefaultClientTTL
    | none => DefaultClientTTL
  else
    DefaultClientTTL

/-- `util.NewNRClient` (TTL variant): return the cached client — and the
cached error — while a cached client exists and its age is below the TTL;
otherwise run `createNRClient` (whose result, a client paired with an
optional error, is the `createNRClient` parameter) and replace the cache
entry and its timestamp with the current instant `now`. -/
def NewNRClient (env : String → String) (atoi : String → Option Int)
    (createNRClient : γ × Option String) (now : Int)
    (st : NRCacheState γ) : NRClientResult γ :=
  match st.cachedNRClient with
  | some cached =>
      if now - st.clientCacheTime < getClientTTL env atoi then
        ⟨some cached, st.nrClientError, st, false⟩
      else
        ⟨some createNRClient.1, createNRClient.2,
          ⟨some createNRClient.1, createNRClient.2, now⟩, true⟩
  | none =>
      ⟨some createNRClient.1, createNRClient.2,
        ⟨some createNRClient.1, createNRClient.2, now⟩, true⟩

/-- One worker's run over the batches it receives: the delivery attempts
(each batch paired with the sink error it produced, `none` on success)
and whether the worker returned cleanly. -/
structure WorkerRun (β : Type) where
  attempts : List (β × Option String)
  exitedCleanly : Bool
  deriving DecidableEq, Repr

/-- `util.ConsumeLogBatches`: the worker loop, applied to the sequence of
batches this worker receives from the channel before it is closed.
`sink` models `nrClientAPI.CreateLogEntry`; on error the worker logs and
continues with the next batch, and when the channel closes (`ok ==
false`, the end of the list) the worker returns. -/
def ConsumeLogBatches (sink : β → Option String) :
    List β → WorkerRun β
  | [] => ⟨[], true⟩
  | batch :: rest =>
      let err := sink batch
      let r := ConsumeLogBatches sink rest
      ⟨(batch, err) :: r.attempts, r.exitedCleanly⟩

/-- The worker pool as the driver spawns it: each inner list is the
subsequence of channel batches one worker happens to receive (workers
share one channel, so the received subsequences partition the sent
batches); every worker runs `ConsumeLogBatches` with the same sink. -/
def WorkerPool (sink : β → Option String)
    (assignments : List (List β)) : List (WorkerRun β) :=
  assignments.map (ConsumeLogBatches sink)

/-- `unmarshal.OCI_LOGGING`. -/
def OCI_LOGGING : String := "ociLogging"

/-- `unmarshal.Event`: the unified event structure. -/
structure Event (α : Type) where
  eventType : String
  OCILoggingEvent : List α
  deriving DecidableEq, Repr

/-- Outcome of `io.ReadAll` on the function input stream. -/
inductive ReadResult
  | readErr (msg : String)
  | payload (bytes : String)
  deriving DecidableEq, Repr

/-- What an `Event.Unmarshal` call does: panic (`log.Panicf`) with a
message, or return with a Go error value (`none` = `nil`) and the filled
event. -/
inductive UnmarshalOutcome (α : Type)
  | panicked (msg : String)
  | returned (err : Option String) (event : Event α)
  deriving DecidableEq, Repr

/-- `unmarshal.Event.Unmarshal`: reads the whole payload (panicking on a
read error), then decodes it as an OCI logging event (`parse` models
`json.Unmarshal` into `common.OCILoggingEvent`), panicking when decoding
fails and returning `nil` otherwise. -/
def Event.Unmarshal (parse : String → Option (List α)) :
    ReadResult → UnmarshalOutcome α
  | ReadResult.readErr msg =>
      UnmarshalOutcome.panicked ("Error reading incoming payload: " ++ msg)
  | ReadResult.payload bytes =>
      match parse bytes with
      | some incomingLogEvent =>
          UnmarshalOutcome.returned none ⟨OCI_LOGGING, incomingLogEvent⟩
      | none =>
          UnmarshalOutcome.panicked
            "Error decoding incoming log events payload"

/-- The observables of one driver run: the surfaced panic message (if
any), how many workers were started, and the batches produced onto the
channel. -/
structure RunResult (α κ : Type) where
  panicMsg : Option String
  workersStarted : Nat
  batches : List (DetailedLog α κ)
  deriving DecidableEq, Repr

/-- `main.handleFunctionWithClient`: unmarshal the event — a panic inside
`Unmarshal` propagates before any worker goroutine exists — then start
`common.NumberOfWorkers` workers, produce the batches for a logging
event (other event types only log a warning), close the channel and wait.
The `returned (some _)` branch mirrors the driver's dead error check:
`Unmarshal` never returns a non-nil error. -/
def handleFunctionWithClient (parse : String → Option (List α))
    (marshal : α → Option Nat) (attributes : κ) (input : ReadResult) :
    RunResult α κ :=
  match Event.Unmarshal parse input with
  | UnmarshalOutcome.panicked msg => ⟨some msg, 0, []⟩
  | UnmarshalOutcome.returned (some _) _ => ⟨none, 0, []⟩
  | UnmarshalOutcome.returned none event =>
      let batches :=
        if event.eventType = OCI_LOGGING then
          ProcessLogs marshal attributes event.OCILoggingEvent
        else
          []
      ⟨none, NumberOfWorkers, batches⟩

/-- C6: a non-empty environment override is returned directly; no secrets
client is constructed and the vault lookup is never entered. -/
theorem C6_override_bypasses_vault (env : String → String)
    (newClient : Except String Unit) (fetch : BundleFetchOutcome)
    (b64decode : String → Option String)
    (h : env EnvLicenseKey ≠ "") :
    GetLicenseKeyWithContext env newClient fetch b64decode =
      ⟨Except.ok (env EnvLicenseKey), false, false⟩ := by
  simp [GetLicenseKeyWithContext, h]

/-- Environment with only the license-key override set, to `abc`. -/
def envOverrideAbc : String → String := fun k =>
  if k = EnvLicenseKey then "abc" else ""

theorem C6_override_bypasses_vault_witness :
    GetLicenseKeyWithContext envOverrideAbc (Except.ok ())
        (BundleFetchOutcome.content "x") (fun _ => none) =
      ⟨Except.ok "abc", false, false⟩ := by
  have h := C6_override_bypasses_vault envOverrideAbc (Except.ok ())
    (BundleFetchOutcome.content "x") (fun _ => none) (by decide)
  simpa [envOverrideAbc] using h

/-- The JSON-shaped secret of the spec's example. -/
def jsonSecretXyz : String := "\x7b\"licenseKey\":\"xyz\"\x7d"

/-- Environment with no override but a secret OCID and vault region. -/
def envVaultOnly : String → String := fun k =>
  if k = SecretOCID then "ocid1.vaultsecret.test"
  else if k = VaultRegion then "us-phoenix-1"
  else ""

/-- C5 counterexample: with no override and a vault fetch whose decoded
content is the JSON text of the spec's example, `GetLicenseKeyWithContext`
returns the whole JSON text, not the `licenseKey` field value `xyz` — the
production resolution path performs no JSON parsing at all. -/
theorem C5_counterexample_json_returned_verbatim :
    (GetLicenseKeyWithContext envVaultOnly (Except.ok ())
        (BundleFetchOutcome.content "b64")
        (fun _ => some jsonSecretXyz)).result = Except.ok jsonSecretXyz ∧
      jsonSecretXyz ≠ "xyz" := by
  exact ⟨rfl, by decide⟩

/-- C5 amended: when no override is set and the vault fetch succeeds, the
production resolution returns the decoded content verbatim — JSON or not;
the JSON-unwrapping behaviour the claim describes lives only in the
test-file helper `extractLicenseKeyFromSecret`, which does return the
license-key field of a JSON object (when present and non-empty) and
returns non-JSON content verbatim. -/
theorem C5_resolution_verbatim_helper_unwraps (env : String → String)
    (b64decode : String → Option String) (b c : String)
    (parseJSON : String → Option (List (String × String)))
    (s v : String) (m : List (String × String)) :
    (env EnvLicenseKey = "" → env SecretOCID ≠ "" → env VaultRegion ≠ "" →
      b64decode b = some c →
      (GetLicenseKeyWithContext env (Except.ok ())
          (BundleFetchOutcome.content b) b64decode).result =
        Except.ok c) ∧
    (s ≠ "" → parseJSON s = none →
      extractLicenseKeyFromSecret parseJSON s = Except.ok s) ∧
    (s ≠ "" → parseJSON s = some m → m.lookup LicenseKey = some v →
      v ≠ "" →
      extractLicenseKeyFromSecret parseJSON s = Except.ok v) := by
  refine ⟨?_, ?_, ?_⟩
  · intro h1 h2 h3 h4
    simp [GetLicenseKeyWithContext, h1, GetSecretFromOCIVault, h2, h3, h4]
  · intro h1 h2
    simp [extractLicenseKeyFromSecret, h1, h2]
  · intro h1 h2 h3 h4
    simp [extractLicenseKeyFromSecret, h1, h2, h3, h4]

theorem C5_resolution_verbatim_helper_unwraps_witness :
    (GetLicenseKeyWithContext envVaultOnly (Except.ok ())
        (BundleFetchOutcome.content "b64")
        (fun _ => some "plain-key")).result = Except.ok "plain-key" ∧
    extractLicenseKeyFromSecret (fun _ => none) "xyz" = Except.ok "xyz" ∧
    extractLicenseKeyFromSecret
        (fun s => if s = jsonSecretXyz then
            some [(LicenseKey, "xyz")] else none)
        jsonSecretXyz = Except.ok "xyz" :=
  ⟨(C5_resolution_verbatim_helper_unwraps envVaultOnly
      (fun _ => some "plain-key") "b64" "plain-key" (fun _ => none)
      "x" "x" []).1 (by decide) (by decide) (by decide) rfl,
   (C5_resolution_verbatim_helper_unwraps envVaultOnly
      (fun _ => some "plain-key") "b64" "plain-key" (fun _ => none)
      "xyz" "x" []).2.1 (by decide) rfl,
   (C5_resolution_verbatim_helper_unwraps envVaultOnly
      (fun _ => some "plain-key") "b64" "plain-key"
      (fun s => if s = jsonSecretXyz then
          some [(LicenseKey, "xyz")] else none)
      jsonSecretXyz "xyz" [(LicenseKey, "xyz")]).2.2
    (by decide) (by decide) (by decide) (by decide)⟩

/-- C7: while a cached client exists and its age is below the TTL,
`NewNRClient` returns the same cached client and the same cached error
without re-resolving and leaves the cache untouched; once the age reaches
the TTL it re-resolves exactly once, replacing the entry and timestamp;
and the TTL is 600 seconds by default, with unset, unparsable or
non-positive overrides falling back to the default. -/
theorem C7_ttl_cache_policy {γ : Type} (env : String → String)
    (atoi : String → Option Int) (createNRClient : γ × Option String)
    (now : Int) (st : NRCacheState γ) (c : γ) (n : Int) :
    (st.cachedNRClient = some c →
      now - st.clientCacheTime < getClientTTL env atoi →
      NewNRClient env atoi createNRClient now st =
        ⟨some c, st.nrClientError, st, false⟩) ∧
    (st.cachedNRClient = some c →
      ¬ now - st.clientCacheTime < getClientTTL env atoi →
      NewNRClient env atoi createNRClient now st =
        ⟨some createNRClient.1, createNRClient.2,
          ⟨some createNRClient.1, createNRClient.2, now⟩, true⟩) ∧
    (env ClientTTL = "" → getClientTTL env atoi = 600) ∧
    (atoi (env ClientTTL) = none → getClientTTL env atoi = 600) ∧
    (atoi (env ClientTTL) = some n → n ≤ 0 →
      getClientTTL env atoi = 600) ∧
    (env ClientTTL ≠ "" → atoi (env ClientTTL) = some n → 0 < n →
      getClientTTL env atoi = n) := by
  refine ⟨?_, ?_, ?_, ?_, ?_, ?_⟩
  · intro hc hlt
    simp [NewNRClient, hc, hlt]
  · intro hc hge
    simp [NewNRClient, hc, hge]
  · intro h
    simp [getClientTTL, h, DefaultClientTTL]
  · intro h
    by_cases he : env ClientTTL = "" <;>
      simp [getClientTTL, he, h, DefaultClientTTL]
  · intro h hle
    by_cases he : env ClientTTL = ""
    · simp [getClientTTL, he, DefaultClientTTL]
    · have hnpos : ¬ n > 0 := by omega
      simp [getClientTTL, he, h, hnpos, DefaultClientTTL]
  · intro he h hpos
    simp [getClientTTL, he, h, hpos]

/-- An environment with no TTL override set. -/
def envNoTTL : String → String := fun _ => ""

/-- A concrete cache state: client 7 cached at instant 100, with a cached
resolution error. -/
def cacheState7 : NRCacheState Nat := ⟨some 7, some "prev-error", 100⟩

theorem C7_ttl_cache_policy_witness :
    NewNRClient envNoTTL (fun _ => none) ((8 : Nat), none) 150 cacheState7 =
      ⟨some 7, some "prev-error", cacheState7, false⟩ ∧
    NewNRClient envNoTTL (fun _ => none) ((8 : Nat), none) 1000 cacheState7 =
      ⟨some 8, none, ⟨some 8, none, 1000⟩, true⟩ ∧
    getClientTTL envNoTTL (fun _ => none) = 600 :=
  ⟨(C7_ttl_cache_policy envNoTTL (fun _ => none) ((8 : Nat), none) 150
      cacheState7 7 0).1 rfl (by decide),
   (C7_ttl_cache_policy envNoTTL (fun _ => none) ((8 : Nat), none) 1000
      cacheState7 7 0).2.1 rfl (by decide),
   (C7_ttl_cache_policy envNoTTL (fun _ => none) ((8 : Nat), none) 1000
      cacheState7 7 0).2.2.1 rfl⟩

/-- C8: when decoding of the incoming record sequence fails, the driver
run aborts before any worker is started — the parse error surfaces (as
the propagated panic) and no batch is produced. -/
theorem C8_parse_failure_aborts (parse : String → Option (List α))
    (marshal : α → Option Nat) (attributes : κ) (bytes : String)
    (h : parse bytes = none) :
    handleFunctionWithClient parse marshal attributes
        (ReadResult.payload bytes) =
      ⟨some "Error decoding incoming log events payload", 0, []⟩ := by
  simp [handleFunctionWithClient, Event.Unmarshal, h]

theorem C8_parse_failure_aborts_witness :
    handleFunctionWithClient (fun _ => (none : Option (List Nat)))
        (fun n => some n) () (ReadResult.payload "not-json") =
      ⟨some "Error decoding incoming log events payload", 0, []⟩ :=
  C8_parse_failure_aborts (fun _ => none) (fun n => some n) ()
    "not-json" rfl

/-- C9: a worker attempts delivery of every batch it receives, in order,
pairing each with the sink's per-batch error — a failed batch is logged
and does not stop later batches — and it exits cleanly when the channel
closes; in a pool, every worker delivers all of its received batches
regardless of failures in any worker. -/
theorem C9_worker_failure_isolation (sink : β → Option String)
    (batches : List β) (assignments : List (List β)) :
    (ConsumeLogBatches sink batches).attempts =
        batches.map (fun b => (b, sink b)) ∧
    (ConsumeLogBatches sink batches).exitedCleanly = true ∧
    (WorkerPool sink assignments).map
        (fun w => w.attempts.map Prod.fst) = assignments := by
  have key : ∀ l : List β,
      (ConsumeLogBatches sink l).attempts =
          l.map (fun b => (b, sink b)) ∧
        (ConsumeLogBatches sink l).exitedCleanly = true := by
    intro l
    induction l with
    | nil => exact ⟨rfl, rfl⟩
    | cons b rest ih =>
        refine ⟨?_, ?_⟩
        · simp [ConsumeLogBatches, ih.1]
        · simp [ConsumeLogBatches, ih.2]
  refine ⟨(key batches).1, (key batches).2, ?_⟩
  rw [WorkerPool, List.map_map]
  have hcomp :
      ((fun w : WorkerRun β => w.attempts.map Prod.fst) ∘
        ConsumeLogBatches sink) = id := by
    funext l
    simp only [Function.comp, (key l).1, List.map_map]
    exact List.map_id l
  rw [hcomp, List.map_id]

/-- C10: `Event.Unmarshal` never returns a non-nil error: it panics on an
unreadable input stream and on an undecodable payload, and returns `nil`
with the filled event otherwise. -/
theorem C10_unmarshal_panics_never_errors
    (parse : String → Option (List α)) (input : ReadResult) :
    (∀ (e : String) (ev : Event α),
        Event.Unmarshal parse input ≠
          UnmarshalOutcome.returned (some e) ev) ∧
    (∀ msg, input = ReadResult.readErr msg →
        Event.Unmarshal parse input =
          UnmarshalOutcome.panicked
            ("Error reading incoming payload: " ++ msg)) ∧
    (∀ bytes, input = ReadResult.payload bytes → parse bytes = none →
        Event.Unmarshal parse input =
          UnmarshalOutcome.panicked
            "Error decoding incoming log events payload") ∧
    (∀ bytes ev, input = ReadResult.payload bytes →
        parse bytes = some ev →
        Event.Unmarshal parse input =
          UnmarshalOutcome.returned none ⟨OCI_LOGGING, ev⟩) := by
  refine ⟨?_, ?_, ?_, ?_⟩
  · intro e ev hcontra
    cases input with
    | readErr msg => simp [Event.Unmarshal] at hcontra
    | payload bytes =>
        cases hp : parse bytes with
        | none => simp [Event.Unmarshal, hp] at hcontra
        | some l => simp [Event.Unmarshal, hp] at hcontra
  · intro msg h
    subst h
    rfl
  · intro bytes h hp
    subst h
    simp [Event.Unmarshal, hp]
  · intro bytes ev h hp
    subst h
    simp [Event.Unmarshal, hp]

theorem C10_unmarshal_panics_never_errors_witness :
    Event.Unmarshal (fun _ => (none : Option (List Nat)))
        (ReadResult.payload "p") =
      UnmarshalOutcome.panicked
        "Error decoding incoming log events payload" ∧
    Event.Unmarshal (fun _ => some [(1 : Nat)]) (ReadResult.payload "p") =
      UnmarshalOutcome.returned none ⟨OCI_LOGGING, [1]⟩ :=
  ⟨(C10_unmarshal_panics_never_errors (fun _ => none)
      (ReadResult.payload "p")).2.2.1 "p" rfl rfl,
   (C10_unmarshal_panics_never_errors (fun _ => some [1])
      (ReadResult.payload "p")).2.2.2 "p" [1] rfl rfl⟩
